import Mathlib

/-!
# word_translater: the lookup / cache orchestration of `src/word/word.go`

A shallow embedding of the Go package `word` and theorems about it.

Conventions of the embedding
* A Go pointer `*word` is an `Option word` (`none` is `nil`); a Go `error` is an
  `Option GoError` (`none` is `nil`).  A function with results `(result *word, err error)`
  returns the pair, so that `(nil, nil)` can be told from the other three shapes.
* Code runs in the monad `Go`: explicit passing of the process state `World`, with an
  `Outcome` that is a normal return, a run-time panic (nil dereference, failed type
  assertion) or a process exit (`Logger.Fatal`).  The state reached at a panic is kept.
* What the outside world answers during one call (the HTTP exchange, faults of the SQL
  driver, the clock, the JSON decoder of the standard library) is the parameter `Env`.
* `go f(x)` appends the task to `World.goroutines`; `runTask` is its body.
* `World.trace` is ghost state: every call of a collaborator function is recorded there.
* Library behaviour the code depends on is modelled where it decides a branch:
  `(*sql.Row).Scan` into a `*string` returns an error for SQL NULL; a method call on a
  nil `*sql.Stmt` or a field access through a nil `*http.Response` panics; an unchecked
  type assertion on a value of another dynamic type panics; `strconv.Atoi` is the one of
  a 64-bit `int`.
-/

namespace WordTranslater

/-! ## Data model -/

/-- The Go struct `word` (word.go:133).  Times are clock readings. -/
structure word where
  Id : Int := 0
  Word : String := ""
  Translations : String := ""
  CreatedOn : Option Nat := none
  AppearTime : Int := 0
  LastAppear : Option Nat := none
  EnglishTrans : String := ""
  deriving DecidableEq, Repr

/-- A row of table `notebook_word`: the columns named by the INSERT of `sqlAddWord`
plus the store-assigned `id`. -/
structure NotebookWord where
  id : Int
  word : String
  translations : String
  created_on : Nat
  appear_time : Int
  last_appear : Nat
  deriving DecidableEq, Repr

/-- A row of the reference table `english_to_english_dictionary`. -/
structure E2EEntry where
  word : String
  translation : String
  deriving DecidableEq, Repr

/-- The relational store.  `nextId` is the identity the store assigns to the next
inserted row (the INSERT of `sqlAddWord` supplies no `id`).  No uniqueness constraint
on `word` is modelled: none is visible in the source.  A column equals a statement
parameter when the two strings are equal, and a result set lists rows in table order. -/
structure DB where
  notebook_word : List NotebookWord := []
  english_to_english_dictionary : List E2EEntry := []
  nextId : Int := 1
  deriving DecidableEq, Repr

/-- The four SQL statements of word.go. -/
inductive Stmt where
  | insertWord
  | getWord
  | getE2E
  | updateWord
  deriving DecidableEq, Repr

/-- Go `error` values that occur. -/
inductive GoError where
  | ErrNoRows
  | scanNull (column : Nat)
  | driver (stmt : Stmt)
  | http
  | other
  deriving DecidableEq, Repr

/-- The part of `*http.Response` the code reads. -/
structure Response where
  Status : String
  Body : String
  deriving DecidableEq, Repr

/-- Values of `interface{}` produced by `json.Unmarshal`: `nil`, `bool`, `float64`
(kept as the literal), `string`, `[]interface{}`, `map[string]interface{}`. -/
inductive JVal where
  | null
  | bool (b : Bool)
  | num (lit : String)
  | str (s : String)
  | arr (xs : List JVal)
  | obj (kvs : List (String × JVal))

/-- One operand of a `fmt.Fprint` / `fmt.Fprintln` call. -/
inductive Arg where
  | s (text : String)
  | i (n : Int)
  | v (val : JVal)

/-- One write to the output sink `writer`. -/
inductive Out where
  | print (args : List Arg)
  | println (args : List Arg)

/-- One line written through `Logger`. -/
structure LogEntry where
  msg : String
  err : Option GoError
  deriving DecidableEq, Repr

/-- A goroutine started with `go`. -/
inductive Task where
  | sqlUpdateWord (id : Int)
  | playMP3 (path : String)
  | downloadMP3 (name url : String)
  deriving DecidableEq, Repr

/-- Ghost record of a call to a collaborator. -/
inductive Call where
  | sqlGetWord (qWord : String)
  | sqlGetE2ETranslation (w : String)
  | youDaoTranslate (searchWord : String)
  | sqlAddWord (w : String)
  | sqlUpdateWord (id : Int)
  | SqlCreateWordList (n : Int)
  | downloadMP3 (name url : String)
  | afplay (path : String)
  deriving DecidableEq, Repr

/-- Process state. `writer = none` is the package variable `writer` before
`DemandWriter` was called (a nil `io.Writer`). `files` is the speech-cache directory:
path and content of each clip. -/
structure World where
  db : DB := {}
  files : List (String × String) := []
  writer : Option (List Out) := some []
  log : List LogEntry := []
  goroutines : List Task := []
  trace : List Call := []

/-- What the outside world does during one call.
* `prepareErr st`: `db.Prepare` of statement `st` returns an error (and a nil `*sql.Stmt`);
* `runErr st`: executing the prepared statement reports a driver error;
* `newRequestErr url`: `http.NewRequest` rejects the URL;
* `http url`: the results `(resp, err)` of `httpClient.Do`;
* `openFileErr path`: `os.OpenFile` with `O_RDWR|O_CREATE|O_TRUNC` fails;
* `jsonUnmarshal text`: the value `json.Unmarshal` stores into an `interface{}`,
  `none` when it reports a syntax error and stores nothing;
* `SqlCreateWordList`: the list query, a function of this package whose body is not
  in word.go. -/
structure Env where
  key : String := ""
  speechPath : String := "speech"
  GOOS : String := "linux"
  now : Nat := 0
  prepareErr : Stmt → Bool := fun _ => false
  runErr : Stmt → Bool := fun _ => false
  newRequestErr : String → Bool := fun _ => false
  http : String → Option Response × Option GoError := fun _ => (none, some .http)
  openFileErr : String → Bool := fun _ => false
  jsonUnmarshal : String → Option JVal := fun _ => none
  SqlCreateWordList : Int → DB → List word × Option GoError := fun _ _ => ([], none)

/-! ## The execution monad -/

/-- How a call ends. -/
inductive Outcome (α : Type) where
  | ret (a : α)
  | panic
  | exit

/-- Go code: a state transformer over `World` with an `Outcome`. -/
def Go (α : Type) : Type := World → Outcome α × World

/-- Sequencing: the continuation runs only after a normal return. -/
def Go.bind {α β : Type} (m : Go α) (f : α → Go β) : Go β := fun s =>
  match m s with
  | (.ret a, s1) => f a s1
  | (.panic, s1) => (.panic, s1)
  | (.exit, s1) => (.exit, s1)

instance : Monad Go where
  pure a := fun s => (.ret a, s)
  bind := Go.bind

/-- A run-time panic. -/
def panic {α : Type} : Go α := fun s => (.panic, s)

/-- Process exit through `Logger.Fatal`. -/
def osExit {α : Type} : Go α := fun s => (.exit, s)

/-- Read the state. -/
def getWorld : Go World := fun s => (.ret s, s)

/-- Update the state. -/
def modifyWorld (f : World → World) : Go Unit := fun s => (.ret (), f s)

/-- Ghost: record a call. -/
def call (c : Call) : Go Unit := modifyWorld fun s => { s with trace := s.trace ++ [c] }

/-- `Logger.Println`. -/
def logPrintln (msg : String) (err : Option GoError) : Go Unit :=
  modifyWorld fun s => { s with log := s.log ++ [⟨msg, err⟩] }

/-- The statement `go t`. -/
def spawn (t : Task) : Go Unit :=
  modifyWorld fun s => { s with goroutines := s.goroutines ++ [t] }

/-- A write to `writer`; a nil writer panics. -/
def write (o : Out) : Go Unit := fun s =>
  match s.writer with
  | none => (.panic, s)
  | some w => (.ret (), { s with writer := some (w ++ [o]) })

/-- `fmt.Fprintln(writer, args...)`. -/
def fprintln (args : List Arg) : Go Unit := write (.println args)

/-- `fmt.Fprint(writer, args...)`. -/
def fprint (args : List Arg) : Go Unit := write (.print args)

/-! ## MySQL (word.go:309-365) -/

/-- Result set of
`SELECT nw.id, nw.word, nw.translations, ee.translation AS english_trans
 FROM notebook_word AS nw Left Join english_to_english_dictionary AS ee
 ON ee.word = nw.word WHERE nw.word = ?`:
every row of `notebook_word` for the word, paired with each dictionary row of that
word, or with NULL (`none`) when the dictionary has none. -/
def DB.selectWord (db : DB) (qWord : String) :
    List (Int × String × String × Option String) :=
  (db.notebook_word.filter fun nw => nw.word == qWord).flatMap fun nw =>
    match db.english_to_english_dictionary.filter fun ee => ee.word == nw.word with
    | [] => [(nw.id, nw.word, nw.translations, none)]
    | es => es.map fun ee => (nw.id, nw.word, nw.translations, some ee.translation)

/-- Result set of
`SELECT ee.translation AS english_trans FROM english_to_english_dictionary AS ee
 where ee.word = ?`. -/
def DB.selectE2E (db : DB) (w : String) : List String :=
  (db.english_to_english_dictionary.filter fun ee => ee.word == w).map fun ee =>
    ee.translation

/-- Effect of
`INSERT INTO notebook_word (word, translations, created_on, appear_time, last_appear)
 VALUES (?, ?, ?, ?, ?)`. -/
def DB.insertWord (db : DB) (w t : String) (created : Nat) (appear : Int) (last : Nat) :
    DB :=
  { db with
    notebook_word := db.notebook_word ++ [⟨db.nextId, w, t, created, appear, last⟩]
    nextId := db.nextId + 1 }

/-- Effect of
`UPDATE notebook_word SET appear_time = appear_time + 1, last_appear = ? WHERE id = ?`. -/
def DB.updateWord (db : DB) (last : Nat) (id : Int) : DB :=
  { db with
    notebook_word := db.notebook_word.map fun nw =>
      if nw.id = id then { nw with appear_time := nw.appear_time + 1, last_appear := last }
      else nw }

/-- `sqlAddWord` (word.go:311): both driver errors are logged and returned. -/
def sqlAddWord (env : Env) (w : word) : Go (Option GoError) := do
  call (.sqlAddWord w.Word)
  if env.prepareErr .insertWord then
    logPrintln "" (some (.driver .insertWord))
    return some (.driver .insertWord)
  if env.runErr .insertWord then
    logPrintln "" (some (.driver .insertWord))
    return some (.driver .insertWord)
  modifyWorld fun s =>
    { s with db := s.db.insertWord w.Word w.Translations env.now 1 env.now }
  return none

/-- `sqlGetWord` (word.go:328).  The error of `db.Prepare` is not checked, so a failed
prepare leaves `stmt` nil and `stmt.QueryRow` panics.  `row.Scan` fails with
`sql.ErrNoRows` on an empty result set, and fails on the fourth column when it is NULL,
because the destination `&result.EnglishTrans` is a plain `*string`. -/
def sqlGetWord (env : Env) (qWord : String) : Go (Option word × Option GoError) := do
  call (.sqlGetWord qWord)
  if env.prepareErr .getWord then panic
  if env.runErr .getWord then return (none, some (.driver .getWord))
  let s ← getWorld
  match (s.db.selectWord qWord).head? with
  | none => return (none, some .ErrNoRows)
  | some (_, _, _, none) => return (none, some (.scanNull 3))
  | some (id, w, t, some e) =>
    return (some { Id := id, Word := w, Translations := t, EnglishTrans := e }, none)

/-- `sqlGetE2ETranslation` (word.go:341): any `Scan` error gives the empty string. -/
def sqlGetE2ETranslation (env : Env) (w : String) : Go String := do
  call (.sqlGetE2ETranslation w)
  if env.prepareErr .getE2E then panic
  if env.runErr .getE2E then return ""
  let s ← getWorld
  match (s.db.selectE2E w).head? with
  | none => return ""
  | some e => return e

/-- `sqlUpdateWord` (word.go:353). -/
def sqlUpdateWord (env : Env) (id : Int) : Go (Option GoError) := do
  call (.sqlUpdateWord id)
  if env.prepareErr .updateWord then panic
  if env.runErr .updateWord then
    logPrintln "" (some (.driver .updateWord))
    return some (.driver .updateWord)
  modifyWorld fun s => { s with db := s.db.updateWord env.now id }
  return none

/-! ## Provider client (word.go:209) -/

/-- The request URL built by `fmt.Sprintf` in `youDaoTranslate`. -/
def requestUrl (env : Env) (searchWord : String) : String :=
  "http://fanyi.youdao.com/openapi.do?keyfrom=YouDaoCV&key=" ++ env.key ++
    "&type=data&doctype=json&version=1.2&q=" ++ searchWord

/-- `youDaoTranslate` (word.go:209).
* The error of `http.NewRequest` is overwritten; with a nil request `httpClient.Do` panics.
* `defer resp.Body.Close()` is evaluated before `err` is looked at: a nil `resp` panics.
* On a status other than `"200 OK"` the function returns `nil, err`, where `err` is the
  error of `httpClient.Do`: nil whenever the exchange itself succeeded. -/
def youDaoTranslate (env : Env) (searchWord : String) :
    Go (Option word × Option GoError) := do
  call (.youDaoTranslate searchWord)
  if env.newRequestErr (requestUrl env searchWord) then panic
  let (resp, err) := env.http (requestUrl env searchWord)
  match resp with
  | none => panic
  | some resp =>
    if err.isSome then logPrintln "获取api出错" err
    if resp.Status != "200 OK" then
      logPrintln "调用翻译api发生错误" none
      return (none, err)
    return (some { Word := searchWord, Translations := resp.Body }, none)

/-! ## Lookup orchestrator (word.go:267) -/

/-- `queryWord` (word.go:267).  `result.EnglishTrans = ...` dereferences `result`
before `err` is tested. -/
def queryWord (env : Env) (searchWord : String) : Go (Option word × Option GoError) := do
  let (w, sqlErr) ← sqlGetWord env searchWord
  if sqlErr.isNone then
    match w with
    | none => panic
    | some w =>
      spawn (.sqlUpdateWord w.Id)
      return (some w, none)
  else
    let (result, err) ← youDaoTranslate env searchWord
    let e2e ← sqlGetE2ETranslation env searchWord
    match result with
    | none => panic
    | some r =>
      let result : word := { r with EnglishTrans := e2e }
      if err.isSome then return (none, err)
      let err ← sqlAddWord env result
      if err.isSome then logPrintln "" err
      return (some result, none)

/-! ## Audio fetch / playback (word.go:233-265) -/

/-- The clip of a word: `fmt.Sprint(speechPath, "/", name, ".mp3")`. -/
def clipPath (env : Env) (name : String) : String :=
  env.speechPath ++ "/" ++ name ++ ".mp3"

/-- Create the file or truncate it to the given content. -/
def setFile (files : List (String × String)) (path content : String) :
    List (String × String) :=
  (files.filter fun f => f.1 != path) ++ [(path, content)]

/-- The content of a file, when it exists. -/
def readFile (files : List (String × String)) (path : String) : Option String :=
  (files.find? fun f => f.1 == path).map fun f => f.2

/-- `playMP3` (word.go:258): runs `afplay` on darwin, nothing elsewhere. -/
def playMP3 (env : Env) (path : String) : Go Unit := do
  if env.GOOS == "darwin" then call (.afplay path)

/-- `downloadMP3` (word.go:233).  `os.OpenFile` is called with `O_CREATE|O_TRUNC`
before the request is sent: an existing clip is emptied first. -/
def downloadMP3 (env : Env) (name url : String) : Go Unit := do
  call (.downloadMP3 name url)
  if env.newRequestErr url then
    logPrintln " download MP3 err :" (some .other)
  else if env.openFileErr (clipPath env name) then
    logPrintln "" (some .other)
    osExit
  else
    modifyWorld fun s => { s with files := setFile s.files (clipPath env name) "" }
    let (resp, err) := env.http url
    if err.isSome then
      logPrintln " download MP3 err :" err
    else
      match resp with
      | none => panic
      | some resp =>
        modifyWorld fun s =>
          { s with files := setFile s.files (clipPath env name) resp.Body }
        playMP3 env (clipPath env name)

/-- The body of a goroutine. -/
def runTask (env : Env) : Task → Go Unit
  | .sqlUpdateWord id => do
    let _ ← sqlUpdateWord env id
  | .playMP3 path => playMP3 env path
  | .downloadMP3 name url => downloadMP3 env name url

/-! ## Formatter (word.go:143-191) -/

/-- The map index expression `f[key]` with the comma-ok form: of several members with
one key the decoder keeps the last. -/
def lookup (f : List (String × JVal)) (key : String) : Option JVal :=
  (f.reverse.find? fun kv => kv.1 == key).map fun kv => kv.2

/-- The unchecked assertion `v.(map[string]interface{})`. -/
def assertMap : Option JVal → Go (List (String × JVal))
  | some (.obj f) => pure f
  | _ => panic

/-- The unchecked assertion `v.([]interface{})`. -/
def assertSlice : JVal → Go (List JVal)
  | .arr xs => pure xs
  | _ => panic

/-- The unchecked assertion `v.(string)`. -/
def assertString : JVal → Go String
  | .str s => pure s
  | _ => panic

/-- `(*word).FormatTranslations` (word.go:143).  The error of `json.Unmarshal` is
dropped; the assertion on line 146 comes before the first write. -/
def FormatTranslations (env : Env) (recv : Option word) : Go Unit := do
  match recv with
  | none => panic
  | some w =>
    let f ← assertMap (env.jsonUnmarshal w.Translations)
    fprintln [.s "---- ", .s w.Word, .s " ----"]
    match lookup f "translation" with
    | some v =>
      let xs ← assertSlice v
      fprintln [.s "基本翻译: ", .v (.arr xs)]
    | none => pure ()
    if w.EnglishTrans != "" then
      fprintln [.s "英英: ", .s w.EnglishTrans]
    match lookup f "basic" with
    | some v =>
      let basic ← assertMap (some v)
      match lookup basic "us-phonetic" with
      | some v =>
        let p ← assertString v
        fprintln [.s "美式发音: ", .s p]
      | none => pure ()
      match lookup basic "uk-phonetic" with
      | some v =>
        let p ← assertString v
        fprintln [.s "英式发音: ", .s p]
      | none => pure ()
      match lookup basic "explains" with
      | some v =>
        let xs ← assertSlice v
        fprintln [.s "其他释义: ", .v (.arr xs)]
      | none => pure ()
      match lookup basic "us-speech" with
      | some v =>
        let s ← getWorld
        if (readFile s.files (clipPath env w.Word)).isSome then
          spawn (.playMP3 (clipPath env w.Word))
        let usURL ← assertString v
        spawn (.downloadMP3 w.Word usURL)
      | none => pure ()
    | none => pure ()

/-- `(*word).FormatWordList` (word.go:177), called with the package's `writer`. -/
def FormatWordList (env : Env) (w : word) : Go Unit := do
  let f ← assertMap (env.jsonUnmarshal w.Translations)
  fprint [.s "---- ", .s w.Word, .s " -- "]
  match lookup f "translation" with
  | some v =>
    let xs ← assertSlice v
    match xs with
    | [] => panic
    | x :: _ => fprintln [.v x, .s "----"]
  | none => pure ()
  match lookup f "basic" with
  | some v =>
    let basic ← assertMap (some v)
    match lookup basic "explains" with
    | some v =>
      let xs ← assertSlice v
      fprintln [.s "其他释义: ", .v (.arr xs)]
    | none => pure ()
  | none => pure ()

/-! ## Handlers (word.go:90, 288-307) -/

/-- `queryWordEnter` (word.go:90). -/
def queryWordEnter (env : Env) (w : String) : Go Unit := do
  if w == "" then
    pure ()
  else
    let (r, err) ← queryWord env w
    if err.isSome then logPrintln "" err
    else FormatTranslations env r

/-- The error of `strconv.Atoi`. -/
inductive NumError where
  | ErrSyntax
  | ErrRange
  deriving DecidableEq, Repr

/-- The value of a decimal digit, `none` for any other character. -/
def digitVal (c : Char) : Option Nat :=
  if c.isDigit then some (c.toNat - '0'.toNat) else none

/-- The loop of `strconv.ParseUint` in base 10: the number read so far, or `none` at
the first character that is not a digit. -/
def parseDigits : List Char → Nat → Option Nat
  | [], acc => some acc
  | c :: cs, acc =>
    match digitVal c with
    | some d => parseDigits cs (acc * 10 + d)
    | none => none

/-- `strconv.Atoi` for a 64-bit `int`: an optional sign, then one or more decimal
digits; a value outside `[-2^63, 2^63 - 1]` is a range error. -/
def Atoi (s : String) : Int × Option NumError :=
  let (neg, ds) : Bool × List Char :=
    match s.toList with
    | '-' :: t => (true, t)
    | '+' :: t => (false, t)
    | cs => (false, cs)
  if ds.isEmpty then (0, some .ErrSyntax)
  else
    match parseDigits ds 0 with
    | none => (0, some .ErrSyntax)
    | some un =>
      if !neg && un ≥ 2 ^ 63 then (2 ^ 63 - 1, some .ErrRange)
      else if neg && un > 2 ^ 63 then (-(2 ^ 63), some .ErrRange)
      else (if neg then -(un : Int) else (un : Int), none)

/-- The loop body of `pushWordList` over the rest of the list; `i` is the index. -/
def pushWordListLoop (env : Env) : List word → Nat → Go Unit
  | [], _ => pure ()
  | w :: rest, i => do
    fprint [.i ((i : Int) + 1), .s " "]
    FormatWordList env w
    fprintln [.s "--------------------------------------"]
    pushWordListLoop env rest (i + 1)

/-- `pushWordList` (word.go:297). -/
def pushWordList (env : Env) (n : Int) : Go Unit := do
  call (.SqlCreateWordList n)
  let s ← getWorld
  let (wordList, err) := env.SqlCreateWordList n s.db
  if err.isSome then pure ()
  else pushWordListLoop env wordList 0

/-- `wordListEnter` (word.go:288). -/
def wordListEnter (env : Env) (sn : String) : Go Unit :=
  let (n, err) := Atoi sn
  let n := if err.isSome then 5 else n
  pushWordList env n

/-! ## Command dispatcher (word.go:86-129)

`RegisterFlag` starts `run`, the only receiver of the two channels.  One step of the
system is a producer sending on a channel, the `select` of `run` taking the head of a
non-empty channel and running its handler to its end, or a started goroutine running
its body.  `sent` and `served` are ghost history: the commands sent so far, and for
every command taken by `run` the writes its handler added to the sink. -/

/-- A command: a lookup (channel `w`) or a list request (channel `wl`). -/
inductive Cmd where
  | w (word : String)
  | wl (n : String)
  deriving DecidableEq, Repr

/-- The content of the output sink. -/
def sink (s : World) : List Out := s.writer.getD []

/-- The process: both channels (capacity 10), the state, and whether it still runs. -/
structure Sys where
  queryWordChan : List String := []
  wordListChan : List String := []
  world : World := {}
  alive : Bool := true
  sent : List Cmd := []
  served : List (Cmd × List Out) := []

/-- One step of the process. -/
inductive Action where
  | sendW (word : String)
  | sendWL (n : String)
  | recvW (env : Env)
  | recvWL (env : Env)
  | goroutine (i : Nat) (env : Env)

/-- Whether a call returned. -/
def Outcome.returned {α : Type} : Outcome α → Bool
  | .ret _ => true
  | _ => false

/-- The state after the handler of command `c` ended with `r`. -/
def Sys.handled (sys : Sys) (c : Cmd) (r : Outcome Unit × World) : Sys :=
  { sys with
    world := r.2
    alive := r.1.returned
    served := sys.served ++ [(c, (sink r.2).drop (sink sys.world).length)] }

/-- The effect of one step; a step that is not enabled (a send on a full channel, a
receive on an empty one, anything after the process died) changes nothing. -/
def Sys.step (sys : Sys) (a : Action) : Sys :=
  if !sys.alive then sys
  else
    match a with
    | .sendW w =>
      if sys.queryWordChan.length < 10 then
        { sys with queryWordChan := sys.queryWordChan ++ [w], sent := sys.sent ++ [.w w] }
      else sys
    | .sendWL n =>
      if sys.wordListChan.length < 10 then
        { sys with wordListChan := sys.wordListChan ++ [n], sent := sys.sent ++ [.wl n] }
      else sys
    | .recvW env =>
      match sys.queryWordChan with
      | [] => sys
      | w :: rest =>
        Sys.handled { sys with queryWordChan := rest } (.w w) (queryWordEnter env w sys.world)
    | .recvWL env =>
      match sys.wordListChan with
      | [] => sys
      | n :: rest =>
        Sys.handled { sys with wordListChan := rest } (.wl n) (wordListEnter env n sys.world)
    | .goroutine i env =>
      match sys.world.goroutines.get? i with
      | none => sys
      | some t =>
        let r := runTask env t
          { sys.world with goroutines := sys.world.goroutines.eraseIdx i }
        { sys with world := r.2, alive := r.1.returned }

/-- The process after a schedule. -/
def Sys.run (sys : Sys) (acts : List Action) : Sys := acts.foldl Sys.step sys

/-- The process right after `RegisterFlag`: empty channels, no history. -/
def Sys.boot (s : World) : Sys := { world := s }

/-- The words of the lookups among some commands. -/
def lookups (cs : List Cmd) : List String :=
  cs.filterMap fun c =>
    match c with
    | .w word => some word
    | .wl _ => none

/-! ## Sequences of lookups -/

/-- Sequentially executed `queryWord` calls, each with what the world answers during
it; a panic ends the sequence. -/
def queryWords : List (Env × String) → World → World
  | [], s => s
  | (env, w) :: rest, s =>
    match queryWord env w s with
    | (.ret _, s1) => queryWords rest s1
    | (_, s1) => s1

/-- At most one row of `notebook_word` per word. -/
def OnePerWord (db : DB) : Prop := (db.notebook_word.map fun r => r.word).Nodup

instance (db : DB) : Decidable (OnePerWord db) := by
  unfold OnePerWord
  infer_instance

/-! ## A JSON decoder, to instantiate `Env.jsonUnmarshal` -/

/-- Skip JSON white space. -/
def skipWs : List Char → List Char
  | c :: cs => if c = ' ' ∨ c = '\n' ∨ c = '\r' ∨ c = '\t' then skipWs cs else c :: cs
  | [] => []

/-- The rest of a string literal after the opening quote: its text and what follows the
closing quote.  Escapes with `u` are not handled. -/
def scanString : List Char → List Char → Option (String × List Char)
  | [], _ => none
  | '"' :: cs, acc => some (String.mk acc.reverse, cs)
  | '\\' :: c :: cs, acc =>
    if c = '"' ∨ c = '\\' ∨ c = '/' then scanString cs (c :: acc)
    else if c = 'n' then scanString cs ('\n' :: acc)
    else if c = 't' then scanString cs ('\t' :: acc)
    else if c = 'r' then scanString cs ('\r' :: acc)
    else if c = 'b' then scanString cs (Char.ofNat 8 :: acc)
    else if c = 'f' then scanString cs (Char.ofNat 12 :: acc)
    else none
  | c :: cs, acc => if c.toNat < 32 ∨ c = '\\' then none else scanString cs (c :: acc)

/-- The longest prefix of decimal digits. -/
def spanDigits : List Char → List Char × List Char
  | c :: cs =>
    if '0' ≤ c ∧ c ≤ '9' then ((spanDigits cs).1.cons c, (spanDigits cs).2) else ([], c :: cs)
  | [] => ([], [])

/-- A number literal: sign, integer part, fraction, exponent. -/
def scanNumber (cs : List Char) : Option (String × List Char) :=
  let (sign, r0) : List Char × List Char :=
    match cs with
    | '-' :: r => (['-'], r)
    | r => ([], r)
  let (int, r1) := spanDigits r0
  if int.isEmpty ∨ (int.length > 1 ∧ int.head? = some '0') then none
  else
    let frac : Option (List Char × List Char) :=
      match r1 with
      | '.' :: r =>
        let (ds, r2) := spanDigits r
        if ds.isEmpty then none else some ('.' :: ds, r2)
      | r => some ([], r)
    match frac with
    | none => none
    | some (fr, r2) =>
      let (e, r3) : List Char × List Char :=
        match r2 with
        | 'e' :: r => (['e'], r)
        | 'E' :: r => (['E'], r)
        | r => ([], r)
      if e.isEmpty then some (String.mk (sign ++ int ++ fr), r2)
      else
        let (es, r4) : List Char × List Char :=
          match r3 with
          | '+' :: r => (['+'], r)
          | '-' :: r => (['-'], r)
          | r => ([], r)
        let (ds, r5) := spanDigits r4
        if ds.isEmpty then none else some (String.mk (sign ++ int ++ fr ++ e ++ es ++ ds), r5)

mutual
/-- One JSON value and the rest of the input. -/
def scanValue : Nat → List Char → Option (JVal × List Char)
  | 0, _ => none
  | fuel + 1, cs =>
    match skipWs cs with
    | '{' :: r =>
      match skipWs r with
      | '}' :: r1 => some (.obj [], r1)
      | r1 => (scanMembers fuel r1).map fun p => (.obj p.1, p.2)
    | '[' :: r =>
      match skipWs r with
      | ']' :: r1 => some (.arr [], r1)
      | r1 => (scanElements fuel r1).map fun p => (.arr p.1, p.2)
    | '"' :: r => (scanString r []).map fun p => (.str p.1, p.2)
    | 't' :: 'r' :: 'u' :: 'e' :: r => some (.bool true, r)
    | 'f' :: 'a' :: 'l' :: 's' :: 'e' :: r => some (.bool false, r)
    | 'n' :: 'u' :: 'l' :: 'l' :: r => some (.null, r)
    | r => (scanNumber r).map fun p => (.num p.1, p.2)
/-- The elements of an array after `[`, up to and including `]`. -/
def scanElements : Nat → List Char → Option (List JVal × List Char)
  | 0, _ => none
  | fuel + 1, cs =>
    match scanValue fuel cs with
    | none => none
    | some (v, r) =>
      match skipWs r with
      | ',' :: r1 => (scanElements fuel r1).map fun p => (v :: p.1, p.2)
      | ']' :: r1 => some ([v], r1)
      | _ => none
/-- The members of an object after `{`, up to and including `}`. -/
def scanMembers : Nat → List Char → Option (List (String × JVal) × List Char)
  | 0, _ => none
  | fuel + 1, cs =>
    match skipWs cs with
    | '"' :: r =>
      match scanString r [] with
      | none => none
      | some (k, r1) =>
        match skipWs r1 with
        | ':' :: r2 =>
          match scanValue fuel r2 with
          | none => none
          | some (v, r3) =>
            match skipWs r3 with
            | ',' :: r4 => (scanMembers fuel r4).map fun p => ((k, v) :: p.1, p.2)
            | '}' :: r4 => some ([(k, v)], r4)
            | _ => none
        | _ => none
    | _ => none
end

/-- A decoder for JSON texts (RFC 8259 without the escapes written with `u`): the whole
text must be one value. -/
def decodeJSON (text : String) : Option JVal :=
  match scanValue (2 * text.length + 2) text.toList with
  | some (v, r) => if (skipWs r).isEmpty then some v else none
  | none => none


/-! ## Concrete worlds -/

/-- A provider that answers `200 OK` with the given body; JSON decoded by `decodeJSON`. -/
def envOK (body : String) : Env :=
  { http := fun _ => (some ⟨"200 OK", body⟩, none), jsonUnmarshal := decodeJSON }

/-- A provider that answers `500 Internal Server Error`. -/
def env500 : Env :=
  { http := fun _ => (some ⟨"500 Internal Server Error", ""⟩, none)
    jsonUnmarshal := decodeJSON }

/-- A store whose insert statement fails at `Exec`, behind a provider answering 200. -/
def envInsertFails (body : String) : Env :=
  { envOK body with runErr := fun st => st == .insertWord }

/-- A payload for `cat`. -/
def payloadCat : String := "\x7b\"translation\":[\"猫\"]\x7d"

/-- A store holding one row for `cat`; the dictionary has no entry for it. -/
def dbCat : DB :=
  { notebook_word := [⟨1, "cat", payloadCat, 0, 1, 0⟩], nextId := 2 }

/-- A payload with an audio-source URL. -/
def payloadSpeech : String :=
  "\x7b\"translation\":[\"猫\"],\"basic\":\x7b\"us-speech\":\"http://dict/cat.mp3\"\x7d\x7d"

/-- No provider reachable (`httpClient.Do` fails); JSON decoded by `decodeJSON`. -/
def envOffline : Env := { jsonUnmarshal := decodeJSON }

/-- The record of `cat` with a payload that carries `basic.us-speech`. -/
def catWithSpeech : word := { Id := 1, Word := "cat", Translations := payloadSpeech }

/-- A speech-cache directory that already holds the clip of `cat`. -/
def worldWithClip : World := { files := [("speech/cat.mp3", "clip")] }

/-- A store with `alpha` and `beta`, each with a gloss in the dictionary. -/
def dbAlphaBeta : DB :=
  { notebook_word :=
      [⟨1, "alpha", "\x7b\"translation\":[\"阿尔法\"]\x7d", 0, 1, 0⟩,
       ⟨2, "beta", "\x7b\"translation\":[\"贝塔\"]\x7d", 0, 1, 0⟩]
    english_to_english_dictionary := [⟨"alpha", "first letter"⟩, ⟨"beta", "second letter"⟩]
    nextId := 3 }

/-! ## Vocabulary of the statements -/

/-- The gloss `sqlGetE2ETranslation` returns when its statement can be prepared. -/
def glossOf (env : Env) (db : DB) (w : String) : String :=
  if env.runErr .getE2E then "" else ((db.selectE2E w).head?).getD ""

/-- The state with one more call on the trace. -/
def World.called (s : World) (c : Call) : World := { s with trace := s.trace ++ [c] }

/-- The state with one more line in the log. -/
def World.logged (s : World) (msg : String) (err : Option GoError) : World :=
  { s with log := s.log ++ [⟨msg, err⟩] }

/-- The record `queryWord` builds from a provider answer. -/
def fetched (env : Env) (db : DB) (W body : String) : word :=
  { Word := W, Translations := body, EnglishTrans := glossOf env db W }

/-- The texts that are decimal integers: an optional sign, then one or more decimal
digits. -/
def isDecimalInteger (sn : String) : Bool :=
  let ds : List Char :=
    match sn.toList with
    | '-' :: t => t
    | '+' :: t => t
    | cs => cs
  !ds.isEmpty && ds.all Char.isDigit

/-- Every run of `m` relates the state before it to the state after it. -/
structure Keeps (R : World → World → Prop) {α : Type} (m : Go α) : Prop where
  run : ∀ s, R s (m s).2

/-- A relation between states that holds across no step and across two steps in a row. -/
structure Frame (R : World → World → Prop) : Prop where
  refl : ∀ s, R s s
  trans : ∀ a b c, R a b → R b c → R a c

/-- The sink after is the sink before followed by further writes. -/
def Appended (a b : World) : Prop := ∃ d, b.writer = a.writer.map fun w => w ++ d

/-- The store is untouched. -/
def SameDb (a b : World) : Prop := b.db = a.db

/-- The reference dictionary has an entry for the word. -/
def HasGloss (db : DB) (W : String) : Prop :=
  ∃ ee ∈ db.english_to_english_dictionary, ee.word = W

/-- The sink is untouched. -/
def SameSink (a b : World) : Prop := b.writer = a.writer

/-- The trace is untouched. -/
def SameTrace (a b : World) : Prop := b.trace = a.trace

/-- The invariant of the dispatcher, relative to the state `s0` at boot: the sink is
what it was at boot followed by the blocks of the commands served, in the order served;
and the lookups sent are those served, in that order, followed by those still queued. -/
def Sys.Ordered (s0 : World) (sys : Sys) : Prop :=
  sink sys.world = sink s0 ++ (sys.served.map Prod.snd).flatten ∧
  lookups sys.sent = lookups (sys.served.map Prod.fst) ++ sys.queryWordChan

/-! ## Theorems

### Running the store, the provider client and `queryWord` -/

@[simp] theorem pure_run {α : Type} (a : α) (s : World) :
    (pure a : Go α) s = (.ret a, s) := rfl

@[simp] theorem bind_run {α β : Type} (m : Go α) (f : α → Go β) (s : World) :
    (m >>= f) s = Go.bind m f s := rfl

/-- A word without a row has an empty result set. -/
theorem selectWord_absent (db : DB) (W : String)
    (habs : ∀ r ∈ db.notebook_word, r.word ≠ W) : db.selectWord W = [] := by
  have hnil : db.notebook_word.filter (fun nw => nw.word == W) = [] := by
    simp only [List.filter_eq_nil_iff]
    intro r hr
    simpa using habs r hr
  simp [DB.selectWord, hnil]

/-- The lookup of a word without a row returns an error and changes only the trace. -/
theorem sqlGetWord_absent (env : Env) (W : String) (s : World)
    (habs : ∀ r ∈ s.db.notebook_word, r.word ≠ W)
    (hprep : env.prepareErr .getWord = false) :
    ∃ e, sqlGetWord env W s =
      (.ret (none, some e), { s with trace := s.trace ++ [.sqlGetWord W] }) := by
  by_cases hrun : env.runErr .getWord = true
  · exact ⟨.driver .getWord, by simp [sqlGetWord, Go.bind, call, modifyWorld, hprep, hrun]⟩
  · exact ⟨.ErrNoRows, by
      simp [sqlGetWord, Go.bind, call, modifyWorld, getWorld, hprep, hrun,
        selectWord_absent _ _ habs]⟩

theorem sqlGetE2ETranslation_run (env : Env) (W : String) (s : World)
    (he2e : env.prepareErr .getE2E = false) :
    sqlGetE2ETranslation env W s = (.ret (glossOf env s.db W), s.called (.sqlGetE2ETranslation W)) := by
  by_cases hrun : env.runErr .getE2E = true
  · simp [sqlGetE2ETranslation, Go.bind, call, modifyWorld, he2e, hrun, glossOf, World.called]
  · cases hh : (s.db.selectE2E W).head? <;>
      simp [sqlGetE2ETranslation, Go.bind, call, modifyWorld, getWorld, he2e, hrun, glossOf,
        World.called, hh]

theorem youDaoTranslate_ok (env : Env) (W body : String) (s : World)
    (hreq : env.newRequestErr (requestUrl env W) = false)
    (hhttp : env.http (requestUrl env W) = (some ⟨"200 OK", body⟩, none)) :
    youDaoTranslate env W s =
      (.ret (some { Word := W, Translations := body }, none), s.called (.youDaoTranslate W)) := by
  simp [youDaoTranslate, Go.bind, call, modifyWorld, hreq, hhttp, World.called]

theorem sqlAddWord_fails (env : Env) (w : word) (s : World)
    (hins : env.prepareErr .insertWord = true ∨ env.runErr .insertWord = true) :
    sqlAddWord env w s =
      (.ret (some (.driver .insertWord)),
        (s.called (.sqlAddWord w.Word)).logged "" (some (.driver .insertWord))) := by
  by_cases hp : env.prepareErr .insertWord = true
  · simp [sqlAddWord, Go.bind, call, modifyWorld, logPrintln, hp, World.called, World.logged]
  · have hr : env.runErr .insertWord = true := by tauto
    simp [sqlAddWord, Go.bind, call, modifyWorld, logPrintln, hp, hr, World.called, World.logged]

theorem sqlAddWord_ok (env : Env) (w : word) (s : World)
    (hp : env.prepareErr .insertWord = false) (hr : env.runErr .insertWord = false) :
    sqlAddWord env w s =
      (.ret none,
        { s.called (.sqlAddWord w.Word) with
          db := s.db.insertWord w.Word w.Translations env.now 1 env.now }) := by
  simp [sqlAddWord, Go.bind, call, modifyWorld, hp, hr, World.called]

/-- `queryWord` on a miss with a provider answering `200 OK`, up to the insert. -/
theorem queryWord_miss_ok (env : Env) (W body : String) (s : World)
    (habs : ∀ r ∈ s.db.notebook_word, r.word ≠ W)
    (hget : env.prepareErr .getWord = false) (he2e : env.prepareErr .getE2E = false)
    (hreq : env.newRequestErr (requestUrl env W) = false)
    (hhttp : env.http (requestUrl env W) = (some ⟨"200 OK", body⟩, none)) :
    queryWord env W s =
      (do
        let err ← sqlAddWord env (fetched env s.db W body)
        if err.isSome then logPrintln "" err
        return (some (fetched env s.db W body), none))
      (((s.called (.sqlGetWord W)).called (.youDaoTranslate W)).called
        (.sqlGetE2ETranslation W)) := by
  obtain ⟨e, hmiss⟩ := sqlGetWord_absent env W s habs hget
  simp [queryWord, Go.bind, hmiss, fun t => youDaoTranslate_ok env W body t hreq hhttp,
    fun t => sqlGetE2ETranslation_run env W t he2e, fetched, World.called]

/-- The lookup of a stored word whose first joined row carries a gloss succeeds. -/
theorem sqlGetWord_hit (env : Env) (W : String) (s : World) (id : Int) (w t e : String)
    (hprep : env.prepareErr .getWord = false) (hrun : env.runErr .getWord = false)
    (hrow : (s.db.selectWord W).head? = some (id, w, t, some e)) :
    sqlGetWord env W s =
      (.ret (some { Id := id, Word := w, Translations := t, EnglishTrans := e }, none),
        s.called (.sqlGetWord W)) := by
  simp [sqlGetWord, Go.bind, call, modifyWorld, getWorld, hprep, hrun, hrow, World.called]

/-- A hit: the stored record is returned, the update is scheduled, and neither the
provider nor the insert is called. -/
theorem queryWord_hit (env : Env) (W : String) (s : World) (id : Int) (w t e : String)
    (hprep : env.prepareErr .getWord = false) (hrun : env.runErr .getWord = false)
    (hrow : (s.db.selectWord W).head? = some (id, w, t, some e)) :
    queryWord env W s =
      (.ret (some { Id := id, Word := w, Translations := t, EnglishTrans := e }, none),
        { s with
          trace := s.trace ++ [.sqlGetWord W]
          goroutines := s.goroutines ++ [.sqlUpdateWord id] }) := by
  simp [queryWord, Go.bind, fun u => sqlGetWord_hit env W u id w t e hprep hrun, hrow,
    World.called, spawn, modifyWorld]

/-- The lookup of a stored word whose joined gloss is NULL fails at `Scan`. -/
theorem sqlGetWord_null_gloss (env : Env) (W : String) (s : World) (id : Int) (w t : String)
    (hprep : env.prepareErr .getWord = false) (hrun : env.runErr .getWord = false)
    (hrow : (s.db.selectWord W).head? = some (id, w, t, none)) :
    sqlGetWord env W s = (.ret (none, some (.scanNull 3)), s.called (.sqlGetWord W)) := by
  simp [sqlGetWord, Go.bind, call, modifyWorld, getWorld, hprep, hrun, hrow, World.called]

/-- The three ways `youDaoTranslate` ends: a panic, `(nil, err)`, or `(record, nil)`. -/
theorem youDaoTranslate_cases (env : Env) (W : String) (s : World) :
    (youDaoTranslate env W s).1 = .panic ∨
    (∃ e, (youDaoTranslate env W s).1 = .ret (none, e)) ∨
    (∃ w, (youDaoTranslate env W s).1 = .ret (some w, none)) := by
  by_cases hreq : env.newRequestErr (requestUrl env W) = true
  · exact Or.inl (by simp [youDaoTranslate, Go.bind, call, modifyWorld, hreq, panic])
  · rcases hh : env.http (requestUrl env W) with ⟨resp, err⟩
    cases resp with
    | none => exact Or.inl (by simp [youDaoTranslate, Go.bind, call, modifyWorld, hreq, hh, panic])
    | some resp =>
      by_cases hst : resp.Status = "200 OK"
      · refine Or.inr (Or.inr ⟨{ Word := W, Translations := resp.Body }, ?_⟩)
        cases err <;>
          simp [youDaoTranslate, Go.bind, call, modifyWorld, logPrintln, hreq, hh, hst]
      · refine Or.inr (Or.inl ⟨err, ?_⟩)
        cases err <;>
          simp [youDaoTranslate, Go.bind, call, modifyWorld, logPrintln, hreq, hh, hst]

/-- `queryWord` never returns a non-nil error: the test `err != nil` comes after the
dereference of `result`, which is nil whenever `youDaoTranslate` returned an error. -/
theorem queryWord_never_returns_error (env : Env) (W : String) (s : World)
    (r : Option word) (e : GoError) :
    (queryWord env W s).1 ≠ .ret (r, some e) := by
  intro h
  unfold queryWord at h
  simp only [bind_run, Go.bind] at h
  rcases hget : sqlGetWord env W s with ⟨o, s2⟩
  rw [hget] at h
  rcases o with ⟨w, sqlErr⟩ | _ | _
  · cases sqlErr with
    | none =>
      cases w with
      | none => simp [panic] at h
      | some w => simp [Go.bind, spawn, modifyWorld] at h
    | some e1 =>
      simp only [Option.isNone_some, Bool.false_eq_true, if_false, bind_run, Go.bind] at h
      rcases hy : youDaoTranslate env W s2 with ⟨oy, s3⟩
      have hc := youDaoTranslate_cases env W s2
      rw [hy] at h hc
      rcases hc with hc | ⟨e2, hc⟩ | ⟨w2, hc⟩ <;> simp only at hc <;> subst hc
      · simp at h
      · simp only at h
        rcases hg : sqlGetE2ETranslation env W s3 with ⟨og, s4⟩
        rw [hg] at h
        rcases og with g | _ | _ <;> simp [panic] at h
      · simp only at h
        rcases hg : sqlGetE2ETranslation env W s3 with ⟨og, s4⟩
        rw [hg] at h
        rcases og with g | _ | _
        · simp only [bind_run, Go.bind, Option.isSome_none, Bool.false_eq_true, if_false] at h
          rcases ha : sqlAddWord env { w2 with EnglishTrans := g } s4 with ⟨oa, s5⟩
          rw [ha] at h
          rcases oa with ea | _ | _
          · cases ea <;> simp [Go.bind, logPrintln, modifyWorld] at h
          · simp at h
          · simp at h
        · simp at h
        · simp at h
  · simp at h
  · simp at h

/-- `queryWord` on a miss, provider `200 OK`, failing insert: the whole result. -/
theorem queryWord_miss_insert_fails (env : Env) (W body : String) (s : World)
    (habs : ∀ r ∈ s.db.notebook_word, r.word ≠ W)
    (hget : env.prepareErr .getWord = false) (he2e : env.prepareErr .getE2E = false)
    (hreq : env.newRequestErr (requestUrl env W) = false)
    (hhttp : env.http (requestUrl env W) = (some ⟨"200 OK", body⟩, none))
    (hins : env.prepareErr .insertWord = true ∨ env.runErr .insertWord = true) :
    queryWord env W s =
      (.ret (some (fetched env s.db W body), none),
        { s with
          trace := s.trace ++ [.sqlGetWord W, .youDaoTranslate W, .sqlGetE2ETranslation W,
            .sqlAddWord W]
          log := s.log ++ [⟨"", some (.driver .insertWord)⟩, ⟨"", some (.driver .insertWord)⟩] }) := by
  rw [queryWord_miss_ok env W body s habs hget he2e hreq hhttp]
  simp [Go.bind, fun w t => sqlAddWord_fails env w t hins, World.called, World.logged,
    logPrintln, modifyWorld, fetched]

/-- `queryWord` on a miss, provider `200 OK`, working insert: the whole result. -/
theorem queryWord_miss_insert_ok (env : Env) (W body : String) (s : World)
    (habs : ∀ r ∈ s.db.notebook_word, r.word ≠ W)
    (hget : env.prepareErr .getWord = false) (he2e : env.prepareErr .getE2E = false)
    (hreq : env.newRequestErr (requestUrl env W) = false)
    (hhttp : env.http (requestUrl env W) = (some ⟨"200 OK", body⟩, none))
    (hp : env.prepareErr .insertWord = false) (hr : env.runErr .insertWord = false) :
    queryWord env W s =
      (.ret (some (fetched env s.db W body), none),
        { s with
          trace := s.trace ++ [.sqlGetWord W, .youDaoTranslate W, .sqlGetE2ETranslation W,
            .sqlAddWord W]
          db := s.db.insertWord W body env.now 1 env.now }) := by
  rw [queryWord_miss_ok env W body s habs hget he2e hreq hhttp]
  simp [Go.bind, fun w t => sqlAddWord_ok env w t hp hr, World.called, fetched]

/-! ### The lookup orchestrator: C1 to C5 and C7 -/

/-- C1 (fails on the code).  A store that holds a row for `cat` while the reference
dictionary has no gloss for it: `sqlGetWord` fails at `Scan`, so `queryWord` calls the
provider, returns the provider's answer instead of the stored record, and inserts a
second row. -/
theorem cached_word_without_gloss_calls_provider :
    dbCat.notebook_word = [⟨1, "cat", payloadCat, 0, 1, 0⟩] ∧
    (queryWord (envOK "{}") "cat" { db := dbCat }).1 =
      .ret (some { Id := 0, Word := "cat", Translations := "{}" }, none) ∧
    (queryWord (envOK "{}") "cat" { db := dbCat }).2.trace =
      [.sqlGetWord "cat", .youDaoTranslate "cat", .sqlGetE2ETranslation "cat",
        .sqlAddWord "cat"] ∧
    (queryWord (envOK "{}") "cat" { db := dbCat }).2.db.notebook_word =
      [⟨1, "cat", payloadCat, 0, 1, 0⟩, ⟨2, "cat", "{}", 0, 1, 0⟩] :=
  ⟨rfl, rfl, by decide, by decide⟩

/-- C2 (fails on the code).  With the provider answering `500` for a word that is not
stored, `queryWord` does not return at all: it panics on the nil `result`.  The store is
left as it was and `sqlAddWord` is not called. -/
theorem provider_500_panics :
    (queryWord env500 "cat" {}).1 = .panic ∧
    (queryWord env500 "cat" {}).2.db = {} ∧
    (queryWord env500 "cat" {}).2.trace =
      [.sqlGetWord "cat", .youDaoTranslate "cat", .sqlGetE2ETranslation "cat"] :=
  ⟨rfl, by decide, by decide⟩

/-- C3 as stated is false: for the unseen word `cat` and a provider answering `200 OK`
the record returned has `AppearTime` 0, not 1. -/
theorem fresh_record_AppearTime_not_one :
    ∃ r : word, (queryWord (envOK "{}") "cat" {}).1 = .ret (some r, none) ∧
      r.Word = "cat" ∧ r.AppearTime ≠ 1 :=
  ⟨{ Word := "cat", Translations := "{}" }, rfl, rfl, by decide⟩

/-- C3 amended.  For every word absent from the store and a provider answering
`200 OK` (the two SELECT statements being preparable), `queryWord` returns a record
whose `Word` is the word, whose `Translations` is the response body and whose
`AppearTime` is left at 0; when the insert works, the store gains exactly one row for
the word, and its `appear_time` is 1. -/
theorem queryWord_fresh_word (env : Env) (W body : String) (s : World)
    (habs : ∀ r ∈ s.db.notebook_word, r.word ≠ W)
    (hget : env.prepareErr .getWord = false) (he2e : env.prepareErr .getE2E = false)
    (hreq : env.newRequestErr (requestUrl env W) = false)
    (hhttp : env.http (requestUrl env W) = (some ⟨"200 OK", body⟩, none)) :
    ∃ r : word, (queryWord env W s).1 = .ret (some r, none) ∧
      r.Word = W ∧ r.Translations = body ∧ r.AppearTime = 0 ∧
      (env.prepareErr .insertWord = false → env.runErr .insertWord = false →
        (queryWord env W s).2.db.notebook_word =
          s.db.notebook_word ++ [⟨s.db.nextId, W, body, env.now, 1, env.now⟩]) := by
  refine ⟨fetched env s.db W body, ?_, rfl, rfl, rfl, ?_⟩
  · by_cases hins : env.prepareErr .insertWord = true ∨ env.runErr .insertWord = true
    · rw [queryWord_miss_insert_fails env W body s habs hget he2e hreq hhttp hins]
    · have hp : env.prepareErr .insertWord = false := by
        cases h : env.prepareErr .insertWord <;> simp_all
      have hr : env.runErr .insertWord = false := by
        cases h : env.runErr .insertWord <;> simp_all
      rw [queryWord_miss_insert_ok env W body s habs hget he2e hreq hhttp hp hr]
  · intro hp hr
    rw [queryWord_miss_insert_ok env W body s habs hget he2e hreq hhttp hp hr]
    rfl

/-- C3 amended, at the word `cat` on the empty store. -/
theorem queryWord_fresh_word_witness :
    ∃ r : word, (queryWord (envOK "{}") "cat" {}).1 = .ret (some r, none) ∧
      r.Word = "cat" ∧ r.Translations = "{}" ∧ r.AppearTime = 0 ∧
      ((envOK "{}").prepareErr .insertWord = false →
        (envOK "{}").runErr .insertWord = false →
        (queryWord (envOK "{}") "cat" {}).2.db.notebook_word =
          ({} : World).db.notebook_word ++ [⟨({} : World).db.nextId, "cat", "{}", (envOK "{}").now, 1, (envOK "{}").now⟩]) :=
  queryWord_fresh_word (envOK "{}") "cat" "{}" {} (by decide) rfl rfl rfl rfl

/-- C4 (fails on the code).  On an empty store and an empty dictionary, a first
`queryWord "cat"` inserts the payload fetched; the second one does not hit: it asks the
provider again and returns that answer, not the stored payload; it schedules no update
and adds a second row; every `appear_time` stays 1. -/
theorem second_lookup_misses_without_gloss :
    (queryWord (envOK payloadCat) "cat" {}).2.db.notebook_word =
      [⟨1, "cat", payloadCat, 0, 1, 0⟩] ∧
    (queryWord (envOK "{}") "cat" (queryWord (envOK payloadCat) "cat" {}).2).1 =
      .ret (some { Id := 0, Word := "cat", Translations := "{}" }, none) ∧
    (queryWord (envOK "{}") "cat" (queryWord (envOK payloadCat) "cat" {}).2).2.goroutines =
      [] ∧
    (queryWord (envOK "{}") "cat" (queryWord (envOK payloadCat) "cat" {}).2).2.trace =
      [.sqlGetWord "cat", .youDaoTranslate "cat", .sqlGetE2ETranslation "cat",
        .sqlAddWord "cat",
        .sqlGetWord "cat", .youDaoTranslate "cat", .sqlGetE2ETranslation "cat",
        .sqlAddWord "cat"] ∧
    (queryWord (envOK "{}") "cat" (queryWord (envOK payloadCat) "cat" {}).2).2.db.notebook_word =
      [⟨1, "cat", payloadCat, 0, 1, 0⟩, ⟨2, "cat", "{}", 0, 1, 0⟩] :=
  ⟨by decide, rfl, by decide, by decide, by decide⟩

/-- C5.  For every word absent from the store and a provider answering `200 OK` (the
two SELECT statements being preparable), when the insert fails at `Prepare` or at
`Exec`, `queryWord` returns the fetched record (the word, the response body, the gloss)
with a nil error, and the store is unchanged. -/
theorem queryWord_insert_failure_not_propagated (env : Env) (W body : String) (s : World)
    (habs : ∀ r ∈ s.db.notebook_word, r.word ≠ W)
    (hget : env.prepareErr .getWord = false) (he2e : env.prepareErr .getE2E = false)
    (hreq : env.newRequestErr (requestUrl env W) = false)
    (hhttp : env.http (requestUrl env W) = (some ⟨"200 OK", body⟩, none))
    (hins : env.prepareErr .insertWord = true ∨ env.runErr .insertWord = true) :
    (queryWord env W s).1 =
        .ret (some { Word := W, Translations := body, EnglishTrans := glossOf env s.db W },
          none) ∧
      (queryWord env W s).2.db = s.db ∧
      (Call.sqlAddWord W) ∈ (queryWord env W s).2.trace := by
  rw [queryWord_miss_insert_fails env W body s habs hget he2e hreq hhttp hins]
  exact ⟨rfl, rfl, by simp⟩

/-- C5 at the word `cat`, empty store, insert failing at `Exec`. -/
theorem queryWord_insert_failure_not_propagated_witness :
    (queryWord (envInsertFails "{}") "cat" {}).1 =
        .ret (some { Word := "cat", Translations := "{}", EnglishTrans := "" }, none) ∧
      (queryWord (envInsertFails "{}") "cat" {}).2.db = ({} : World).db ∧
      (Call.sqlAddWord "cat") ∈ (queryWord (envInsertFails "{}") "cat" {}).2.trace :=
  queryWord_insert_failure_not_propagated (envInsertFails "{}") "cat" "{}" {} (by decide)
    rfl rfl rfl rfl (Or.inr rfl)

/-- C7 (fails on the code).  Two sequential lookups of `cat`, starting from the empty
store with an empty dictionary, leave two rows for `cat`. -/
theorem sequential_lookups_duplicate_row :
    OnePerWord ({} : World).db ∧
    ¬ OnePerWord (queryWords [(envOK "{}", "cat"), (envOK "{}", "cat")] {}).db := by
  decide

/-! ### Frame rules -/

theorem keeps_pure {R : World → World → Prop} {α : Type} (hR : Frame R) (a : α) :
    Keeps R (pure a : Go α) := ⟨fun s => hR.refl s⟩

theorem keeps_bind {R : World → World → Prop} {α β : Type} (hR : Frame R) {m : Go α}
    {f : α → Go β} (hm : Keeps R m) (hf : ∀ a, Keeps R (f a)) : Keeps R (m >>= f) := by
  constructor
  intro s
  have h1 := hm.run s
  simp only [bind_run, Go.bind]
  rcases hms : m s with ⟨o, s1⟩
  rw [hms] at h1
  cases o with
  | ret a => exact hR.trans _ _ _ h1 ((hf a).run s1)
  | panic => exact h1
  | exit => exact h1

theorem keeps_panic {R : World → World → Prop} {α : Type} (hR : Frame R) :
    Keeps R (panic : Go α) := ⟨fun s => hR.refl s⟩

theorem keeps_osExit {R : World → World → Prop} {α : Type} (hR : Frame R) :
    Keeps R (osExit : Go α) := ⟨fun s => hR.refl s⟩

theorem keeps_getWorld {R : World → World → Prop} (hR : Frame R) :
    Keeps R getWorld := ⟨fun s => hR.refl s⟩

theorem keeps_assertMap {R : World → World → Prop} (hR : Frame R) (v : Option JVal) :
    Keeps R (assertMap v) := by
  unfold assertMap
  split
  · exact keeps_pure hR _
  · exact keeps_panic hR

theorem keeps_assertSlice {R : World → World → Prop} (hR : Frame R) (v : JVal) :
    Keeps R (assertSlice v) := by
  unfold assertSlice
  split
  · exact keeps_pure hR _
  · exact keeps_panic hR

theorem keeps_assertString {R : World → World → Prop} (hR : Frame R) (v : JVal) :
    Keeps R (assertString v) := by
  unfold assertString
  split
  · exact keeps_pure hR _
  · exact keeps_panic hR

theorem frame_Appended : Frame Appended where
  refl s := ⟨[], by cases s.writer <;> simp⟩
  trans a b c := by
    rintro ⟨d1, h1⟩ ⟨d2, h2⟩
    refine ⟨d1 ++ d2, ?_⟩
    rw [h2, h1]
    cases a.writer <;> simp

theorem frame_SameSink : Frame SameSink where
  refl _ := rfl
  trans _ _ _ h1 h2 := h2.trans h1

theorem frame_SameTrace : Frame SameTrace where
  refl _ := rfl
  trans _ _ _ h1 h2 := h2.trans h1

theorem write_Appended (o : Out) : Keeps Appended (write o) := by
  constructor
  intro s
  unfold write
  cases h : s.writer with
  | none => exact ⟨[], by simp [h]⟩
  | some w => exact ⟨[o], by simp [h]⟩

theorem write_SameTrace (o : Out) : Keeps SameTrace (write o) := by
  constructor
  intro s
  unfold write
  cases h : s.writer <;> rfl

theorem modifyWorld_Appended (f : World → World) (hf : ∀ s, (f s).writer = s.writer) :
    Keeps Appended (modifyWorld f) :=
  ⟨fun s => ⟨[], by cases h : s.writer <;> simp [modifyWorld, hf, h]⟩⟩

theorem modifyWorld_SameSink (f : World → World) (hf : ∀ s, (f s).writer = s.writer) :
    Keeps SameSink (modifyWorld f) :=
  ⟨fun s => hf s⟩

theorem call_Appended (c : Call) : Keeps Appended (call c) :=
  modifyWorld_Appended _ fun _ => rfl

theorem logPrintln_Appended (m : String) (e : Option GoError) :
    Keeps Appended (logPrintln m e) :=
  modifyWorld_Appended _ fun _ => rfl

theorem spawn_Appended (t : Task) : Keeps Appended (spawn t) :=
  modifyWorld_Appended _ fun _ => rfl

theorem call_SameSink (c : Call) : Keeps SameSink (call c) :=
  modifyWorld_SameSink _ fun _ => rfl

theorem logPrintln_SameSink (m : String) (e : Option GoError) :
    Keeps SameSink (logPrintln m e) :=
  modifyWorld_SameSink _ fun _ => rfl

theorem FormatWordList_SameTrace (env : Env) (w : word) :
    Keeps SameTrace (FormatWordList env w) := by
  unfold FormatWordList fprint fprintln
  repeat' first
    | with_reducible exact keeps_pure frame_SameTrace _
    | with_reducible exact keeps_panic frame_SameTrace
    | with_reducible exact keeps_assertMap frame_SameTrace _
    | with_reducible exact keeps_assertSlice frame_SameTrace _
    | with_reducible exact write_SameTrace _
    | with_reducible apply keeps_bind frame_SameTrace
    | split
    | intro _

theorem pushWordListLoop_SameTrace (env : Env) (ws : List word) :
    ∀ i, Keeps SameTrace (pushWordListLoop env ws i) := by
  induction ws with
  | nil => intro i; exact keeps_pure frame_SameTrace _
  | cons w rest ih =>
    intro i
    unfold pushWordListLoop fprint fprintln
    repeat' first
      | with_reducible exact ih _
      | with_reducible exact FormatWordList_SameTrace env w
      | with_reducible exact write_SameTrace _
      | with_reducible apply keeps_bind frame_SameTrace
      | intro _

/-- The trace `pushWordList` leaves: the list query with the requested size. -/
theorem pushWordList_trace (env : Env) (n : Int) (s : World) :
    (pushWordList env n s).2.trace = s.trace ++ [.SqlCreateWordList n] := by
  unfold pushWordList
  simp only [bind_run, Go.bind, call, modifyWorld, getWorld]
  split
  · exact ((keeps_pure frame_SameTrace ()).run _)
  · exact ((pushWordListLoop_SameTrace env _ 0).run _)

/-- The digit loop fails as soon as one character is not a digit. -/
theorem parseDigits_not_all (ds : List Char) :
    ∀ acc, ds.all Char.isDigit = false → parseDigits ds acc = none := by
  induction ds with
  | nil => intro acc h; simp at h
  | cons c cs ih =>
    intro acc h
    unfold parseDigits digitVal
    by_cases hc : c.isDigit = true
    · have hcs : cs.all Char.isDigit = false := by
        cases hall : cs.all Char.isDigit
        · rfl
        · simp [hc, hall] at h
      simp [hc, ih _ hcs]
    · simp [hc]

/-- A text that is not a decimal integer is a syntax error of `Atoi`. -/
theorem Atoi_not_decimal (sn : String) (h : isDecimalInteger sn = false) :
    Atoi sn = (0, some .ErrSyntax) := by
  unfold isDecimalInteger at h
  unfold Atoi
  generalize sn.toList = cs at h ⊢
  split at h <;> simp only [Bool.and_eq_false_iff, Bool.not_eq_false'] at h
  all_goals
    rcases h with h | h
    · simp [h]
    · simp [parseDigits_not_all _ 0 h]

/-- C9.  `wordListEnter` asks `pushWordList` for 5 words when the text is not a
decimal integer (no digits, or a character that is not a digit after the optional sign),
and more generally whenever `strconv.Atoi` returns an error; it asks for `n` words when
`strconv.Atoi` parses the text as `n`.  In each case the list query recorded on the
trace carries that size. -/
theorem wordListEnter_size (env : Env) (sn : String) (s : World) :
    (isDecimalInteger sn = false →
      wordListEnter env sn s = pushWordList env 5 s ∧
      (wordListEnter env sn s).2.trace = s.trace ++ [.SqlCreateWordList 5]) ∧
    (∀ (n : Int) (e : NumError), Atoi sn = (n, some e) →
      wordListEnter env sn s = pushWordList env 5 s ∧
      (wordListEnter env sn s).2.trace = s.trace ++ [.SqlCreateWordList 5]) ∧
    (∀ n : Int, Atoi sn = (n, none) →
      wordListEnter env sn s = pushWordList env n s ∧
      (wordListEnter env sn s).2.trace = s.trace ++ [.SqlCreateWordList n]) := by
  have herr : ∀ (n : Int) (e : NumError), Atoi sn = (n, some e) →
      wordListEnter env sn s = pushWordList env 5 s ∧
      (wordListEnter env sn s).2.trace = s.trace ++ [.SqlCreateWordList 5] := by
    intro n e h
    have h5 : wordListEnter env sn s = pushWordList env 5 s := by
      simp [wordListEnter, h]
    exact ⟨h5, by rw [h5]; exact pushWordList_trace env 5 s⟩
  refine ⟨fun h => herr 0 .ErrSyntax (Atoi_not_decimal sn h), herr, ?_⟩
  intro n h
  have hn : wordListEnter env sn s = pushWordList env n s := by
    simp [wordListEnter, h]
  exact ⟨hn, by rw [hn]; exact pushWordList_trace env n s⟩

/-- C9 at the texts `five` (not a number), `9223372036854775808` (out of range) and
`-12`. -/
theorem wordListEnter_size_witness :
    (wordListEnter {} "five" {} = pushWordList {} 5 {} ∧
      (wordListEnter {} "five" {}).2.trace = [.SqlCreateWordList 5]) ∧
    (wordListEnter {} "9223372036854775808" {} = pushWordList {} 5 {} ∧
      (wordListEnter {} "9223372036854775808" {}).2.trace = [.SqlCreateWordList 5]) ∧
    (wordListEnter {} "-12" {} = pushWordList {} (-12) {} ∧
      (wordListEnter {} "-12" {}).2.trace = [.SqlCreateWordList (-12)]) :=
  ⟨(wordListEnter_size {} "five" {}).1 (by decide),
    (wordListEnter_size {} "9223372036854775808" {}).2.1 (2 ^ 63 - 1) .ErrRange (by decide),
    (wordListEnter_size {} "-12" {}).2.2 (-12) (by decide)⟩

/-! ### The sink under the handlers and the goroutines -/

theorem sqlGetWord_Appended (env : Env) (w : String) : Keeps Appended (sqlGetWord env w) := by
  unfold sqlGetWord
  repeat' first
    | with_reducible exact keeps_pure frame_Appended _
    | with_reducible exact keeps_panic frame_Appended
    | with_reducible exact keeps_getWorld frame_Appended
    | with_reducible exact call_Appended _
    | with_reducible apply keeps_bind frame_Appended
    | split
    | intro _

theorem sqlGetE2ETranslation_Appended (env : Env) (w : String) :
    Keeps Appended (sqlGetE2ETranslation env w) := by
  unfold sqlGetE2ETranslation
  repeat' first
    | with_reducible exact keeps_pure frame_Appended _
    | with_reducible exact keeps_panic frame_Appended
    | with_reducible exact keeps_getWorld frame_Appended
    | with_reducible exact call_Appended _
    | with_reducible apply keeps_bind frame_Appended
    | split
    | intro _

theorem sqlAddWord_Appended (env : Env) (w : word) : Keeps Appended (sqlAddWord env w) := by
  unfold sqlAddWord
  repeat' first
    | with_reducible exact keeps_pure frame_Appended _
    | with_reducible exact call_Appended _
    | with_reducible exact logPrintln_Appended _ _
    | with_reducible exact modifyWorld_Appended _ fun _ => rfl
    | with_reducible apply keeps_bind frame_Appended
    | split
    | intro _

theorem youDaoTranslate_Appended (env : Env) (w : String) :
    Keeps Appended (youDaoTranslate env w) := by
  unfold youDaoTranslate
  repeat' first
    | with_reducible exact keeps_pure frame_Appended _
    | with_reducible exact keeps_panic frame_Appended
    | with_reducible exact call_Appended _
    | with_reducible exact logPrintln_Appended _ _
    | with_reducible apply keeps_bind frame_Appended
    | split
    | intro _

theorem queryWord_Appended (env : Env) (w : String) : Keeps Appended (queryWord env w) := by
  unfold queryWord
  repeat' first
    | with_reducible exact keeps_pure frame_Appended _
    | with_reducible exact keeps_panic frame_Appended
    | with_reducible exact sqlGetWord_Appended _ _
    | with_reducible exact sqlGetE2ETranslation_Appended _ _
    | with_reducible exact sqlAddWord_Appended _ _
    | with_reducible exact youDaoTranslate_Appended _ _
    | with_reducible exact spawn_Appended _
    | with_reducible exact logPrintln_Appended _ _
    | with_reducible apply keeps_bind frame_Appended
    | split
    | intro _

theorem FormatTranslations_Appended (env : Env) (w : Option word) :
    Keeps Appended (FormatTranslations env w) := by
  unfold FormatTranslations fprintln
  repeat' first
    | with_reducible exact keeps_pure frame_Appended _
    | with_reducible exact keeps_panic frame_Appended
    | with_reducible exact keeps_getWorld frame_Appended
    | with_reducible exact keeps_assertMap frame_Appended _
    | with_reducible exact keeps_assertSlice frame_Appended _
    | with_reducible exact keeps_assertString frame_Appended _
    | with_reducible exact write_Appended _
    | with_reducible exact spawn_Appended _
    | with_reducible apply keeps_bind frame_Appended
    | split
    | intro _

theorem queryWordEnter_Appended (env : Env) (w : String) :
    Keeps Appended (queryWordEnter env w) := by
  unfold queryWordEnter
  repeat' first
    | with_reducible exact keeps_pure frame_Appended _
    | with_reducible exact queryWord_Appended _ _
    | with_reducible exact FormatTranslations_Appended _ _
    | with_reducible exact logPrintln_Appended _ _
    | with_reducible apply keeps_bind frame_Appended
    | split
    | intro _

theorem FormatWordList_Appended (env : Env) (w : word) :
    Keeps Appended (FormatWordList env w) := by
  unfold FormatWordList fprint fprintln
  repeat' first
    | with_reducible exact keeps_pure frame_Appended _
    | with_reducible exact keeps_panic frame_Appended
    | with_reducible exact keeps_assertMap frame_Appended _
    | with_reducible exact keeps_assertSlice frame_Appended _
    | with_reducible exact write_Appended _
    | with_reducible apply keeps_bind frame_Appended
    | split
    | intro _

theorem pushWordListLoop_Appended (env : Env) (ws : List word) :
    ∀ i, Keeps Appended (pushWordListLoop env ws i) := by
  induction ws with
  | nil => intro i; exact keeps_pure frame_Appended _
  | cons w rest ih =>
    intro i
    unfold pushWordListLoop fprint fprintln
    repeat' first
      | with_reducible exact ih _
      | with_reducible exact FormatWordList_Appended env w
      | with_reducible exact write_Appended _
      | with_reducible apply keeps_bind frame_Appended
      | intro _

theorem wordListEnter_Appended (env : Env) (sn : String) :
    Keeps Appended (wordListEnter env sn) := by
  unfold wordListEnter pushWordList
  repeat' first
    | with_reducible exact keeps_pure frame_Appended _
    | with_reducible exact keeps_getWorld frame_Appended
    | with_reducible exact pushWordListLoop_Appended _ _ _
    | with_reducible exact call_Appended _
    | with_reducible apply keeps_bind frame_Appended
    | split
    | intro _

theorem sqlUpdateWord_SameSink (env : Env) (id : Int) :
    Keeps SameSink (sqlUpdateWord env id) := by
  unfold sqlUpdateWord
  repeat' first
    | with_reducible exact keeps_pure frame_SameSink _
    | with_reducible exact keeps_panic frame_SameSink
    | with_reducible exact call_SameSink _
    | with_reducible exact logPrintln_SameSink _ _
    | with_reducible exact modifyWorld_SameSink _ fun _ => rfl
    | with_reducible apply keeps_bind frame_SameSink
    | split
    | intro _

theorem playMP3_SameSink (env : Env) (path : String) : Keeps SameSink (playMP3 env path) := by
  unfold playMP3
  split
  · exact call_SameSink _
  · exact keeps_pure frame_SameSink _

theorem downloadMP3_SameSink (env : Env) (name url : String) :
    Keeps SameSink (downloadMP3 env name url) := by
  unfold downloadMP3
  repeat' first
    | with_reducible exact keeps_pure frame_SameSink _
    | with_reducible exact keeps_panic frame_SameSink
    | with_reducible exact keeps_osExit frame_SameSink
    | with_reducible exact playMP3_SameSink _ _
    | with_reducible exact call_SameSink _
    | with_reducible exact logPrintln_SameSink _ _
    | with_reducible exact modifyWorld_SameSink _ fun _ => rfl
    | with_reducible apply keeps_bind frame_SameSink
    | split
    | intro _

/-- A goroutine never writes to the sink. -/
theorem runTask_SameSink (env : Env) (t : Task) : Keeps SameSink (runTask env t) := by
  cases t with
  | sqlUpdateWord id =>
    show Keeps SameSink (sqlUpdateWord env id >>= fun _ => pure ())
    exact keeps_bind frame_SameSink (sqlUpdateWord_SameSink env id)
      fun _ => keeps_pure frame_SameSink _
  | playMP3 path => exact playMP3_SameSink env path
  | downloadMP3 name url => exact downloadMP3_SameSink env name url

/-! ### The dispatcher -/

theorem lookups_append (a b : List Cmd) : lookups (a ++ b) = lookups a ++ lookups b := by
  simp [lookups, List.filterMap_append]

theorem lookups_w (w : String) : lookups [.w w] = [w] := rfl

theorem lookups_wl (n : String) : lookups [.wl n] = [] := rfl

/-- After a handler the sink is the sink before it followed by the block recorded. -/
theorem sink_block (a b : World) (h : Appended a b) :
    sink b = sink a ++ (sink b).drop (sink a).length := by
  obtain ⟨d, hd⟩ := h
  unfold sink
  rw [hd]
  cases a.writer <;> simp

/-- Serving a lookup keeps the invariant. -/
theorem ordered_handled_w (s0 : World) (sys : Sys) (w : String) (rest : List String)
    (r : Outcome Unit × World) (hq : sys.queryWordChan = w :: rest)
    (hr : Appended sys.world r.2) (h : sys.Ordered s0) :
    (Sys.handled { sys with queryWordChan := rest } (.w w) r).Ordered s0 := by
  obtain ⟨h1, h2⟩ := h
  constructor
  · simp only [Sys.handled, List.map_append, List.map_cons, List.map_nil, List.flatten_append,
      List.flatten_cons, List.flatten_nil, List.append_nil]
    rw [← List.append_assoc, ← h1]
    exact sink_block _ _ hr
  · simp only [Sys.handled, List.map_append, List.map_cons, List.map_nil]
    rw [h2, hq, lookups_append, lookups_w]
    simp

/-- Serving a list request keeps the invariant. -/
theorem ordered_handled_wl (s0 : World) (sys : Sys) (n : String) (rest : List String)
    (r : Outcome Unit × World)
    (hr : Appended sys.world r.2) (h : sys.Ordered s0) :
    (Sys.handled { sys with wordListChan := rest } (.wl n) r).Ordered s0 := by
  obtain ⟨h1, h2⟩ := h
  constructor
  · simp only [Sys.handled, List.map_append, List.map_cons, List.map_nil, List.flatten_append,
      List.flatten_cons, List.flatten_nil, List.append_nil]
    rw [← List.append_assoc, ← h1]
    exact sink_block _ _ hr
  · simp only [Sys.handled, List.map_append, List.map_cons, List.map_nil]
    rw [h2, lookups_append, lookups_wl]
    simp

/-- Every step keeps the invariant. -/
theorem ordered_step (s0 : World) (sys : Sys) (a : Action) (h : sys.Ordered s0) :
    (sys.step a).Ordered s0 := by
  unfold Sys.step
  split
  · exact h
  · cases a with
    | sendW w =>
      simp only
      split
      · refine ⟨h.1, ?_⟩
        simp only
        rw [lookups_append, lookups_w, h.2, List.append_assoc]
      · exact h
    | sendWL n =>
      simp only
      split
      · refine ⟨h.1, ?_⟩
        simp only
        rw [lookups_append, lookups_wl, h.2, List.append_nil]
      · exact h
    | recvW env =>
      simp only
      split
      · exact h
      · rename_i w rest hq
        exact ordered_handled_w s0 sys w rest _ hq ((queryWordEnter_Appended env w).run _) h
    | recvWL env =>
      simp only
      split
      · exact h
      · rename_i n rest hq
        exact ordered_handled_wl s0 sys n rest _ ((wordListEnter_Appended env n).run _) h
    | goroutine i env =>
      simp only
      split
      · exact h
      · rename_i t ht
        refine ⟨?_, h.2⟩
        have hs := (runTask_SameSink env t).run
          { sys.world with goroutines := sys.world.goroutines.eraseIdx i }
        have h1 := h.1
        unfold sink at h1 ⊢
        unfold SameSink at hs
        simp only at hs ⊢
        rw [hs]
        exact h1

/-- C10.  Whatever the schedule of sends, receives and goroutine runs after boot, the
sink holds what it held at boot followed by one block per command served, the blocks in
the order in which `run` took the commands and each block being exactly what that
command's handler wrote; and `run` takes the lookups in the order they were sent (the
lookups sent so far are the lookups served, in order, followed by those still queued).
So of two lookups sent in order, everything written for the first stands in the sink
before anything written for the second. -/
theorem dispatcher_output_in_submission_order (s0 : World) (acts : List Action) :
    sink ((Sys.boot s0).run acts).world =
        sink s0 ++ (((Sys.boot s0).run acts).served.map Prod.snd).flatten ∧
      lookups ((Sys.boot s0).run acts).sent =
        lookups (((Sys.boot s0).run acts).served.map Prod.fst) ++
          ((Sys.boot s0).run acts).queryWordChan := by
  have hboot : (Sys.boot s0).Ordered s0 := ⟨by simp [Sys.boot], by simp [Sys.boot, lookups]⟩
  have hrun : ∀ (acts : List Action) (sys : Sys), sys.Ordered s0 → (sys.run acts).Ordered s0 := by
    intro acts
    induction acts with
    | nil => intro sys h; exact h
    | cons a rest ih => intro sys h; exact ih _ (ordered_step s0 sys a h)
  exact hrun acts _ hboot

/-! ### The formatter -/

/-- C6 as stated is false: for a record whose payload is empty, is not JSON, or is a JSON
array, `FormatTranslations` panics and the sink stays empty: no header line is written. -/
theorem malformed_payload_panics_without_header :
    ((FormatTranslations envOffline (some { Word := "cat", Translations := "" }) {}).1 = .panic ∧
      sink (FormatTranslations envOffline (some { Word := "cat", Translations := "" }) {}).2 = []) ∧
    ((FormatTranslations envOffline (some { Word := "cat", Translations := "cat?" }) {}).1 = .panic ∧
      sink (FormatTranslations envOffline (some { Word := "cat", Translations := "cat?" }) {}).2 = []) ∧
    ((FormatTranslations envOffline (some { Word := "cat", Translations := "[1]" }) {}).1 = .panic ∧
      sink (FormatTranslations envOffline (some { Word := "cat", Translations := "[1]" }) {}).2 = []) :=
  ⟨⟨rfl, rfl⟩, ⟨rfl, rfl⟩, ⟨rfl, rfl⟩⟩

/-- C6 amended.  For every record whose payload does not decode to a JSON object
(`json.Unmarshal` fails and stores nothing, or stores a value that is not a map),
`FormatTranslations` panics at the type assertion before any write: the state, and with
it the sink, is exactly what it was. -/
theorem FormatTranslations_malformed (env : Env) (w : word) (s : World)
    (hbad : ∀ f, env.jsonUnmarshal w.Translations ≠ some (.obj f)) :
    FormatTranslations env (some w) s = (.panic, s) := by
  unfold FormatTranslations
  simp only [bind_run, Go.bind]
  cases hj : env.jsonUnmarshal w.Translations with
  | none => rfl
  | some v =>
    cases v with
    | obj f => exact absurd hj (hbad f)
    | null => rfl
    | bool b => rfl
    | num l => rfl
    | str t => rfl
    | arr xs => rfl

/-- C6 amended, at a record whose payload is a JSON array. -/
theorem FormatTranslations_malformed_witness :
    (∀ f, envOffline.jsonUnmarshal "[1]" ≠ some (.obj f)) ∧
    FormatTranslations envOffline (some { Word := "cat", Translations := "[1]" }) {} =
      (.panic, {}) :=
  ⟨(fun _ h => by cases h),
    FormatTranslations_malformed envOffline { Word := "cat", Translations := "[1]" } {}
      (fun _ h => by cases h)⟩

/-- C8 (fails on the code).  The clip of `cat` is in the speech cache and the payload
carries `basic.us-speech`: `FormatTranslations` starts `playMP3` on the clip and then
starts `downloadMP3` all the same; when that goroutine runs, the clip is truncated (here
the download then fails, and the clip stays empty). -/
theorem cached_clip_is_downloaded_again :
    readFile worldWithClip.files (clipPath envOffline "cat") = some "clip" ∧
    (FormatTranslations envOffline (some catWithSpeech) worldWithClip).1 = .ret () ∧
    (FormatTranslations envOffline (some catWithSpeech) worldWithClip).2.goroutines =
      [.playMP3 "speech/cat.mp3", .downloadMP3 "cat" "http://dict/cat.mp3"] ∧
    (runTask envOffline (.downloadMP3 "cat" "http://dict/cat.mp3")
      (FormatTranslations envOffline (some catWithSpeech) worldWithClip).2).2.trace =
      [.downloadMP3 "cat" "http://dict/cat.mp3"] ∧
    readFile (runTask envOffline (.downloadMP3 "cat" "http://dict/cat.mp3")
      (FormatTranslations envOffline (some catWithSpeech) worldWithClip).2).2.files
      (clipPath envOffline "cat") = some "" :=
  ⟨by decide, rfl, by decide, by decide, by decide⟩

/-! ### Where the lookup does hit -/

/-- The joined result set of a word whose only row was just inserted, when the
dictionary has an entry for it. -/
theorem selectWord_inserted (db : DB) (W P : String) (c : Nat) (a : Int) (l : Nat)
    (g : E2EEntry) (rest : List E2EEntry)
    (habs : ∀ r ∈ db.notebook_word, r.word ≠ W)
    (hdict : (db.english_to_english_dictionary.filter fun ee => ee.word == W) = g :: rest) :
    ((db.insertWord W P c a l).selectWord W).head? =
      some (db.nextId, W, P, some g.translation) := by
  have hnil : db.notebook_word.filter (fun nw => nw.word == W) = [] := by
    simp only [List.filter_eq_nil_iff]
    intro r hr
    simpa using habs r hr
  simp [DB.selectWord, DB.insertWord, List.filter_append, hnil, hdict]

/-- The round trip of C4 when the dictionary has a gloss for the word: the second
lookup hits, returns the payload inserted by the first, and schedules the update of the
inserted row; once that update has run, every row of the word has `appear_time` 2. -/
theorem roundtrip_with_gloss (env1 env2 env3 : Env) (W P : String) (s : World)
    (g : E2EEntry) (rest : List E2EEntry)
    (habs : ∀ r ∈ s.db.notebook_word, r.word ≠ W)
    (hdict : (s.db.english_to_english_dictionary.filter fun ee => ee.word == W) = g :: rest)
    (hget : env1.prepareErr .getWord = false) (he2e : env1.prepareErr .getE2E = false)
    (hreq : env1.newRequestErr (requestUrl env1 W) = false)
    (hhttp : env1.http (requestUrl env1 W) = (some ⟨"200 OK", P⟩, none))
    (hp : env1.prepareErr .insertWord = false) (hr : env1.runErr .insertWord = false)
    (hget2 : env2.prepareErr .getWord = false) (hrun2 : env2.runErr .getWord = false)
    (hup : env3.prepareErr .updateWord = false) (hrun3 : env3.runErr .updateWord = false) :
    (queryWord env2 W (queryWord env1 W s).2).1 =
        .ret (some ⟨s.db.nextId, W, P, none, 0, none, g.translation⟩, none) ∧
      (queryWord env2 W (queryWord env1 W s).2).2.goroutines =
        s.goroutines ++ [.sqlUpdateWord s.db.nextId] ∧
      ∀ row ∈ (runTask env3 (.sqlUpdateWord s.db.nextId)
          (queryWord env2 W (queryWord env1 W s).2).2).2.db.notebook_word,
        row.word = W → row.appear_time = 2 := by
  rw [queryWord_miss_insert_ok env1 W P s habs hget he2e hreq hhttp hp hr]
  have hrow := selectWord_inserted s.db W P env1.now 1 env1.now g rest habs hdict
  rw [queryWord_hit env2 W _ s.db.nextId W P g.translation hget2 hrun2 hrow]
  refine ⟨rfl, rfl, ?_⟩
  intro row hrow hw
  simp only [runTask, sqlUpdateWord, bind_run, Go.bind, call, modifyWorld, hup, hrun3,
    Bool.false_eq_true, if_false, pure_run, DB.updateWord, DB.insertWord, List.map_append,
    List.map_cons, List.map_nil, List.mem_append, List.mem_map, List.mem_singleton] at hrow
  rcases hrow with ⟨r0, hr0, hrow⟩ | hrow
  · have hne := habs r0 hr0
    split at hrow <;> subst hrow <;> exact absurd hw hne
  · simp at hrow
    subst hrow
    rfl

/-- The dispatcher on `alpha` then `beta`, with the goroutine of the first lookup
running in between: the three lines of `alpha`, then the three lines of `beta`. -/
theorem alpha_then_beta_example :
    sink ((Sys.boot { db := dbAlphaBeta }).run
        [.sendW "alpha", .sendW "beta", .recvW envOffline, .goroutine 0 envOffline,
          .recvW envOffline]).world =
      [.println [.s "---- ", .s "alpha", .s " ----"],
       .println [.s "基本翻译: ", .v (.arr [.str "阿尔法"])],
       .println [.s "英英: ", .s "first letter"],
       .println [.s "---- ", .s "beta", .s " ----"],
       .println [.s "基本翻译: ", .v (.arr [.str "贝塔"])],
       .println [.s "英英: ", .s "second letter"]] ∧
    ((Sys.boot { db := dbAlphaBeta }).run
        [.sendW "alpha", .sendW "beta", .recvW envOffline, .goroutine 0 envOffline,
          .recvW envOffline]).world.db.notebook_word.map (fun r => (r.word, r.appear_time)) =
      [("alpha", 2), ("beta", 1)] :=
  ⟨rfl, by decide⟩

/-! ### The store under sequences of lookups -/

theorem frame_SameDb : Frame SameDb where
  refl _ := rfl
  trans _ _ _ h1 h2 := h2.trans h1

theorem modifyWorld_SameDb (f : World → World) (hf : ∀ s, (f s).db = s.db) :
    Keeps SameDb (modifyWorld f) :=
  ⟨fun s => hf s⟩

theorem sqlGetWord_SameDb (env : Env) (w : String) : Keeps SameDb (sqlGetWord env w) := by
  unfold sqlGetWord call
  repeat' first
    | with_reducible exact keeps_pure frame_SameDb _
    | with_reducible exact keeps_panic frame_SameDb
    | with_reducible exact keeps_getWorld frame_SameDb
    | with_reducible exact modifyWorld_SameDb _ fun _ => rfl
    | with_reducible apply keeps_bind frame_SameDb
    | split
    | intro _

theorem sqlGetE2ETranslation_SameDb (env : Env) (w : String) :
    Keeps SameDb (sqlGetE2ETranslation env w) := by
  unfold sqlGetE2ETranslation call
  repeat' first
    | with_reducible exact keeps_pure frame_SameDb _
    | with_reducible exact keeps_panic frame_SameDb
    | with_reducible exact keeps_getWorld frame_SameDb
    | with_reducible exact modifyWorld_SameDb _ fun _ => rfl
    | with_reducible apply keeps_bind frame_SameDb
    | split
    | intro _

theorem youDaoTranslate_SameDb (env : Env) (w : String) :
    Keeps SameDb (youDaoTranslate env w) := by
  unfold youDaoTranslate call logPrintln
  repeat' first
    | with_reducible exact keeps_pure frame_SameDb _
    | with_reducible exact keeps_panic frame_SameDb
    | with_reducible exact modifyWorld_SameDb _ fun _ => rfl
    | with_reducible apply keeps_bind frame_SameDb
    | split
    | intro _

/-- A record returned by `youDaoTranslate` carries the word asked for. -/
theorem youDaoTranslate_word (env : Env) (W : String) (s s1 : World) (r : word)
    (err : Option GoError) (h : youDaoTranslate env W s = (.ret (some r, err), s1)) :
    r.Word = W := by
  by_cases hreq : env.newRequestErr (requestUrl env W) = true
  · simp [youDaoTranslate, Go.bind, call, modifyWorld, hreq, panic] at h
  · rcases hh : env.http (requestUrl env W) with ⟨resp, e⟩
    cases resp with
    | none => simp [youDaoTranslate, Go.bind, call, modifyWorld, hreq, hh, panic] at h
    | some resp =>
      by_cases hst : resp.Status = "200 OK" <;> cases e <;>
        simp [youDaoTranslate, Go.bind, call, modifyWorld, logPrintln, hreq, hh, hst] at h
      all_goals
        rw [← h.1.1]

/-- `sqlAddWord` leaves the store as it was or adds one row for the word. -/
theorem sqlAddWord_db (env : Env) (w : word) (s : World) :
    (sqlAddWord env w s).2.db = s.db ∨
    (sqlAddWord env w s).2.db = s.db.insertWord w.Word w.Translations env.now 1 env.now := by
  by_cases hins : env.prepareErr .insertWord = true ∨ env.runErr .insertWord = true
  · exact Or.inl (by rw [sqlAddWord_fails env w s hins]; rfl)
  · have hp : env.prepareErr .insertWord = false := by
      cases h : env.prepareErr .insertWord <;> simp_all
    have hr : env.runErr .insertWord = false := by
      cases h : env.runErr .insertWord <;> simp_all
    exact Or.inr (by rw [sqlAddWord_ok env w s hp hr])

/-- `queryWord` changes the store only by inserting one row for the word, and only
after `sqlGetWord` returned an error. -/
theorem queryWord_db (env : Env) (W : String) (s : World) :
    (queryWord env W s).2.db = s.db ∨
    ((∃ w e, (sqlGetWord env W s).1 = .ret (w, some e)) ∧
      ∃ P, (queryWord env W s).2.db = s.db.insertWord W P env.now 1 env.now) := by
  unfold queryWord
  simp only [bind_run, Go.bind]
  have h1 := (sqlGetWord_SameDb env W).run s
  rcases hget : sqlGetWord env W s with ⟨o, s1⟩
  rw [hget] at h1
  unfold SameDb at h1
  simp only at h1
  rcases o with ⟨w, sqlErr⟩ | _ | _
  · cases sqlErr with
    | none =>
      cases w with
      | none => exact Or.inl h1
      | some w => exact Or.inl h1
    | some e1 =>
      simp only [Option.isNone_some, Bool.false_eq_true, if_false, bind_run, Go.bind]
      have h2 := (youDaoTranslate_SameDb env W).run s1
      rcases hy : youDaoTranslate env W s1 with ⟨oy, s2⟩
      rw [hy] at h2
      unfold SameDb at h2
      simp only at h2
      rcases oy with ⟨result, err⟩ | _ | _
      · simp only
        have h3 := (sqlGetE2ETranslation_SameDb env W).run s2
        rcases hg : sqlGetE2ETranslation env W s2 with ⟨og, s3⟩
        rw [hg] at h3
        unfold SameDb at h3
        simp only at h3
        rcases og with g | _ | _
        · simp only
          cases result with
          | none => exact Or.inl (by simp only [panic]; rw [h3, h2, h1])
          | some r =>
            simp only
            cases err with
            | some e2 => exact Or.inl (by simp; rw [h3, h2, h1])
            | none =>
              simp only [Option.isSome_none, Bool.false_eq_true, if_false, bind_run, Go.bind]
              have hW := youDaoTranslate_word env W s1 s2 r none hy
              have h4 := sqlAddWord_db env { r with EnglishTrans := g } s3
              rcases ha : sqlAddWord env { r with EnglishTrans := g } s3 with ⟨oa, s4⟩
              rw [ha] at h4
              simp only at h4
              have hfin : ∀ t : World, t.db = s4.db →
                  t.db = s.db ∨ ((∃ w1 e, (Outcome.ret (w, some e1) :
                    Outcome (Option word × Option GoError)) = .ret (w1, some e)) ∧
                    ∃ P, t.db = s.db.insertWord W P env.now 1 env.now) := by
                intro t ht
                rcases h4 with h4 | h4
                · exact Or.inl (by rw [ht, h4, h3, h2, h1])
                · exact Or.inr ⟨⟨w, e1, rfl⟩, r.Translations, by
                    rw [ht, h4, h3, h2, h1, hW]⟩
              rcases oa with ea | _ | _
              · cases ea with
                | none => exact hfin _ rfl
                | some e3 => exact hfin _ (by simp [Go.bind, logPrintln, modifyWorld])
              · exact hfin _ rfl
              · exact hfin _ rfl
        · exact Or.inl (by simp only; rw [h3, h2, h1])
        · exact Or.inl (by simp only; rw [h3, h2, h1])
      · exact Or.inl (by simp only; rw [h2, h1])
      · exact Or.inl (by simp only; rw [h2, h1])
  · exact Or.inl h1
  · exact Or.inl h1

/-- The joined result set of a stored word that has a gloss starts with a row whose
gloss is not NULL. -/
theorem selectWord_present (db : DB) (W : String)
    (hrow : ∃ r ∈ db.notebook_word, r.word = W) (hgl : HasGloss db W) :
    ∃ id t g, (db.selectWord W).head? = some (id, W, t, some g) := by
  obtain ⟨r, hr, hrW⟩ := hrow
  obtain ⟨ee, hee, heeW⟩ := hgl
  have hr' : r ∈ db.notebook_word.filter (fun nw => nw.word == W) := by
    simp [List.mem_filter, hr, hrW]
  have hee' : ee ∈ db.english_to_english_dictionary.filter (fun e => e.word == W) := by
    simp [List.mem_filter, hee, heeW]
  cases hf : db.notebook_word.filter (fun nw => nw.word == W) with
  | nil => rw [hf] at hr'; cases hr'
  | cons r0 rs =>
    have hr0 : r0 ∈ db.notebook_word.filter (fun nw => nw.word == W) := by
      rw [hf]; exact List.mem_cons_self _ _
    have hr0W : r0.word = W := by
      simpa using (List.mem_filter.mp hr0).2
    cases hg : db.english_to_english_dictionary.filter (fun e => e.word == W) with
    | nil => rw [hg] at hee'; cases hee'
    | cons g gs =>
      refine ⟨r0.id, r0.translations, g.translation, ?_⟩
      simp [DB.selectWord, hf, hr0W, hg]

/-- The lookup of a stored word that has a gloss returns no error, unless the driver
reports one. -/
theorem sqlGetWord_present (env : Env) (W : String) (s : World)
    (hrun : env.runErr .getWord = false)
    (hrow : ∃ r ∈ s.db.notebook_word, r.word = W) (hgl : HasGloss s.db W)
    (w : Option word) (e : GoError) :
    (sqlGetWord env W s).1 ≠ .ret (w, some e) := by
  by_cases hprep : env.prepareErr .getWord = true
  · simp [sqlGetWord, Go.bind, call, modifyWorld, hprep, panic]
  · obtain ⟨id, t, g, hsel⟩ := selectWord_present s.db W hrow hgl
    have hprep' : env.prepareErr .getWord = false := by
      cases h : env.prepareErr .getWord <;> simp_all
    rw [sqlGetWord_hit env W s id W t g hprep' hrun hsel]
    simp

/-- One lookup keeps the store at one row per word, when the word looked up has a gloss
in the dictionary and the SELECT of `sqlGetWord` reports no driver error. -/
theorem onePerWord_queryWord (env : Env) (W : String) (s : World)
    (hrun : env.runErr .getWord = false) (hgl : HasGloss s.db W) (h : OnePerWord s.db) :
    OnePerWord (queryWord env W s).2.db ∧
    (queryWord env W s).2.db.english_to_english_dictionary =
      s.db.english_to_english_dictionary := by
  rcases queryWord_db env W s with hsame | ⟨⟨w, e, herr⟩, P, hins⟩
  · rw [hsame]; exact ⟨h, rfl⟩
  · rw [hins]
    refine ⟨?_, rfl⟩
    have habs : ∀ r ∈ s.db.notebook_word, r.word ≠ W := by
      intro r hr hrW
      exact sqlGetWord_present env W s hrun ⟨r, hr, hrW⟩ hgl w e herr
    unfold OnePerWord at h ⊢
    simp only [DB.insertWord, List.map_append, List.map_cons, List.map_nil]
    refine List.Nodup.append h (List.nodup_singleton _) ?_
    intro x hx hx'
    rw [List.mem_singleton] at hx'
    subst hx'
    obtain ⟨r, hr, hrx⟩ := List.mem_map.mp hx
    exact habs r hr hrx

/-- The invariant of C7, where it holds: sequential lookups keep the store at one row
per word when every word looked up has a gloss in the dictionary and no SELECT of
`sqlGetWord` reports a driver error. -/
theorem onePerWord_queryWords (calls : List (Env × String)) :
    ∀ s : World, (∀ c ∈ calls, c.1.runErr .getWord = false ∧ HasGloss s.db c.2) →
      OnePerWord s.db → OnePerWord (queryWords calls s).db := by
  induction calls with
  | nil => intro s _ h; exact h
  | cons c rest ih =>
    intro s hc h
    obtain ⟨env, W⟩ := c
    have hhd := hc (env, W) (List.mem_cons_self _ _)
    have hstep := onePerWord_queryWord env W s hhd.1 hhd.2 h
    unfold queryWords
    rcases hq : queryWord env W s with ⟨o, s1⟩
    rw [hq] at hstep
    cases o with
    | ret a =>
      refine ih s1 ?_ hstep.1
      intro c' hc'
      have := hc c' (List.mem_cons_of_mem _ hc')
      refine ⟨this.1, ?_⟩
      unfold HasGloss at this ⊢
      rw [hstep.2]
      exact this.2
    | panic => exact hstep.1
    | exit => exact hstep.1

end WordTranslater
